import Mathlib

/-!
Verification of the ViralAudit landing page's Session State Container
(`src/index.tsx`).  The container holds an optional signed-in user record
and UI flags, persists the record in a single `localStorage` slot keyed
by `"viralAuditUser"`, and exposes `login` / `signup` / `logout` plus the
UI handlers that call them.  This file embeds the container, the store
and the handlers as executable Lean definitions and proves the spec's
claims about them.
-/

namespace ViralAudit

/-- Left brace character, written via its code point. -/
def lbrace : Char := Char.ofNat 123

/-- Right brace character, written via its code point. -/
def rbrace : Char := Char.ofNat 125

/-- The user record held by the container (`type User` in `src/index.tsx`,
lines 17-20): an email plus an optional display name. -/
structure User where
  email : String
  name : Option String := none
deriving DecidableEq, Repr

/-- The auth dialog view selector (`'login' | 'signup'`, line 30). -/
inductive AuthView where
  | login
  | signup
deriving DecidableEq, Repr

/-- The React state of `AuthProvider` (lines 47-50): the optional session,
the initial-rehydration flag, the dialog visibility flag and the dialog
view. -/
structure AuthState where
  user : Option User
  isLoading : Bool
  showAuthModal : Bool
  authView : AuthView
deriving DecidableEq, Repr

/-- The persisted key-value store, restricted to its single slot
`"viralAuditUser"`: `none` when the key is absent, `some s` when the key
holds the string `s`. -/
abbrev Store := Option String

/-- The container state together with the persisted store. -/
structure World where
  state : AuthState
  store : Store
deriving DecidableEq, Repr

/-- The state `AuthProvider` mounts with (lines 47-50): no user, loading,
dialog closed, signup view. -/
def initialState : AuthState :=
  { user := none, isLoading := true, showAuthModal := false, authView := AuthView.signup }

/-! ### JSON serialization of user records

Models the platform pair `JSON.stringify` / `JSON.parse` as used by the
container: `login`/`signup` store `JSON.stringify({email})` (lines 64, 72)
and the mount effect reads the slot back through `JSON.parse` (line 56).
The serializer implements JSON string escaping exactly as
`JSON.stringify` does (quote, backslash, and control characters via the
named escapes or `\u00XX`); the reader implements `JSON.parse` restricted
to the record shapes `{"email":...}` and `{"email":...,"name":...}`,
returning `none` where `JSON.parse` raises a `SyntaxError`. -/

/-- Lower-case hexadecimal digit for a value below 16. -/
def hexDigit (n : Nat) : Char :=
  if n < 10 then Char.ofNat (48 + n) else Char.ofNat (87 + n)

/-- Numeric value of a hexadecimal digit character, `none` if the
character is not a hex digit. -/
def hexVal (c : Char) : Option Nat :=
  if 48 ≤ c.toNat ∧ c.toNat ≤ 57 then some (c.toNat - 48)
  else if 97 ≤ c.toNat ∧ c.toNat ≤ 102 then some (c.toNat - 87)
  else if 65 ≤ c.toNat ∧ c.toNat ≤ 70 then some (c.toNat - 55)
  else none

/-- JSON escape of one character, as produced by `JSON.stringify`. -/
def jsonEscapeChar (c : Char) : List Char :=
  if c = '"' then ['\\', '"']
  else if c = '\\' then ['\\', '\\']
  else if c = '\n' then ['\\', 'n']
  else if c = '\r' then ['\\', 'r']
  else if c = '\t' then ['\\', 't']
  else if c.toNat = 8 then ['\\', 'b']
  else if c.toNat = 12 then ['\\', 'f']
  else if c.toNat < 32 then ['\\', 'u', '0', '0', hexDigit (c.toNat / 16), hexDigit (c.toNat % 16)]
  else [c]

/-- JSON escape of a character sequence. -/
def jsonEscapeList : List Char → List Char
  | [] => []
  | c :: cs => jsonEscapeChar c ++ jsonEscapeList cs

/-- A JSON string literal (opening and closing quote included) for a
character sequence. -/
def jsonQuoteList (cs : List Char) : List Char :=
  '"' :: (jsonEscapeList cs ++ ['"'])

/-- Decode of a single-character JSON escape (the character after the
backslash), `none` when the escape is invalid. -/
def unescapeChar (e : Char) : Option Char :=
  if e = '"' then some '"'
  else if e = '\\' then some '\\'
  else if e = '/' then some '/'
  else if e = 'n' then some '\n'
  else if e = 't' then some '\t'
  else if e = 'r' then some '\r'
  else if e = 'b' then some (Char.ofNat 8)
  else if e = 'f' then some (Char.ofNat 12)
  else none

/-- Reads the body of a JSON string literal (the opening quote already
consumed): returns the decoded characters and the input remaining after
the closing quote, `none` on a JSON syntax error. -/
def readStringBody : List Char → Option (List Char × List Char)
  | [] => none
  | c :: cs =>
    if c = '"' then some ([], cs)
    else if c = '\\' then
      match cs with
      | [] => none
      | e :: cs1 =>
        if e = 'u' then
          match cs1 with
          | h1 :: h2 :: h3 :: h4 :: cs2 =>
            match hexVal h1, hexVal h2, hexVal h3, hexVal h4 with
            | some a, some b, some x, some d =>
              (readStringBody cs2).map fun r =>
                (Char.ofNat (((a * 16 + b) * 16 + x) * 16 + d) :: r.1, r.2)
            | _, _, _, _ => none
          | _ => none
        else
          match unescapeChar e with
          | some d => (readStringBody cs1).map fun r => (d :: r.1, r.2)
          | none => none
    else if c.toNat < 32 then none
    else (readStringBody cs).map fun r => (c :: r.1, r.2)

/-- Consumes an expected literal character sequence from the front of the
input, `none` when the input does not start with it. -/
def dropExact (p cs : List Char) : Option (List Char) :=
  match p, cs with
  | [], cs => some cs
  | _ :: _, [] => none
  | a :: p, c :: cs => if c = a then dropExact p cs else none

/-- The characters of the serialized email key, `"email":`. -/
def keyEmail : List Char := ['"', 'e', 'm', 'a', 'i', 'l', '"', ':']

/-- The characters of the serialized name key, `"name":`. -/
def keyName : List Char := ['"', 'n', 'a', 'm', 'e', '"', ':']

/-- Characters of `JSON.stringify` applied to a user record: the record
`{email}` built by `login`/`signup` serializes to `{"email":<string>}`;
a record with a name serializes to `{"email":<string>,"name":<string>}`. -/
def stringifyUserChars (u : User) : List Char :=
  match u.name with
  | none => lbrace :: (keyEmail ++ jsonQuoteList u.email.data ++ [rbrace])
  | some n =>
      lbrace :: (keyEmail ++ jsonQuoteList u.email.data ++
        (',' :: (keyName ++ jsonQuoteList n.data ++ [rbrace])))

/-- `JSON.stringify` of a user record, as stored in the slot. -/
def jsonStringifyUser (u : User) : String :=
  ⟨stringifyUserChars u⟩

/-! ### JSON values and the model of `JSON.parse`

The mount effect reads the slot back through the platform `JSON.parse`
(line 56), which accepts any JSON text — leading/trailing whitespace,
all value forms, objects with arbitrary keys in any order — and raises a
`SyntaxError` exactly on ill-formed text.  The model below implements
that grammar faithfully.  Two deliberate representation choices: a
numeric literal is kept as its text (the container never computes with
numbers, so IEEE value semantics are not needed), and string escapes are
decoded to Unicode scalar values (escapes denoting lone UTF-16 surrogate
halves, which JS strings can hold but scalar-value strings cannot, are
outside the model's string domain; the container never produces them). -/

/-- A parsed JSON value. -/
inductive Json where
  | null
  | bool (b : Bool)
  | num (lit : String)
  | str (s : String)
  | arr (elems : List Json)
  | obj (fields : List (String × Json))
deriving Repr

/-- JSON whitespace (space, tab, line feed, carriage return). -/
def isWs (c : Char) : Bool :=
  c = ' ' || c = '\t' || c = '\n' || c = '\r'

/-- Drops leading JSON whitespace. -/
def skipWs : List Char → List Char
  | [] => []
  | c :: cs => if isWs c then skipWs cs else c :: cs

/-- Decimal digit test. -/
def isDigit (c : Char) : Bool :=
  48 ≤ c.toNat && c.toNat ≤ 57

/-- Splits a longest digit run off the front of the input. -/
def takeDigits : List Char → (List Char × List Char)
  | [] => ([], [])
  | c :: cs =>
    if isDigit c then
      let r := takeDigits cs
      (c :: r.1, r.2)
    else ([], c :: cs)

/-- Integer part of a JSON number: a lone zero or a nonzero digit
followed by digits. -/
def parseIntPart (cs : List Char) : Option (List Char × List Char) :=
  match cs with
  | [] => none
  | c :: cs1 =>
    if c = '0' then some (['0'], cs1)
    else if isDigit c then
      let r := takeDigits cs1
      some (c :: r.1, r.2)
    else none

/-- Optional fraction part of a JSON number: a dot requires at least one
digit. -/
def parseFrac (cs : List Char) : Option (List Char × List Char) :=
  match cs with
  | [] => some ([], [])
  | c :: cs1 =>
    if c = '.' then
      match takeDigits cs1 with
      | ([], _) => none
      | (ds, r) => some ('.' :: ds, r)
    else some ([], c :: cs1)

/-- Optional exponent part of a JSON number: e/E, an optional sign, and
at least one digit. -/
def parseExp (cs : List Char) : Option (List Char × List Char) :=
  match cs with
  | [] => some ([], [])
  | c :: cs1 =>
    if c = 'e' || c = 'E' then
      let sgn : List Char × List Char :=
        match cs1 with
        | [] => ([], [])
        | d :: cs2 => if d = '+' || d = '-' then ([d], cs2) else ([], d :: cs2)
      match takeDigits sgn.2 with
      | ([], _) => none
      | (ds, r) => some (c :: (sgn.1 ++ ds), r)
    else some ([], c :: cs1)

/-- A complete JSON number literal (sign, integer, fraction, exponent). -/
def parseNumberLit (cs : List Char) : Option (List Char × List Char) := do
  let sgn : List Char × List Char :=
    match cs with
    | [] => ([], [])
    | c :: cs1 => if c = '-' then (['-'], cs1) else ([], c :: cs1)
  let (ip, cs2) ← parseIntPart sgn.2
  let (fp, cs3) ← parseFrac cs2
  let (ep, cs4) ← parseExp cs3
  some (sgn.1 ++ ip ++ fp ++ ep, cs4)

mutual

/-- Recursive-descent read of one JSON value.  The fuel argument bounds
the recursion through containers; every recursive call first consumes at
least one input character, so fuel exceeding the input length never runs
out. -/
def parseValue : Nat → List Char → Option (Json × List Char)
  | 0, _ => none
  | _ + 1, [] => none
  | f + 1, c :: cs1 =>
    if c = '"' then
      (readStringBody cs1).map fun r => (Json.str ⟨r.1⟩, r.2)
    else if c = 'n' then
      (dropExact ['u', 'l', 'l'] cs1).map fun r => (Json.null, r)
    else if c = 't' then
      (dropExact ['r', 'u', 'e'] cs1).map fun r => (Json.bool true, r)
    else if c = 'f' then
      (dropExact ['a', 'l', 's', 'e'] cs1).map fun r => (Json.bool false, r)
    else if c = lbrace then
      match skipWs cs1 with
      | [] => none
      | d :: cs2 =>
        if d = rbrace then some (Json.obj [], cs2)
        else (parseMembers f (d :: cs2)).map fun r => (Json.obj r.1, r.2)
    else if c = '[' then
      match skipWs cs1 with
      | [] => none
      | d :: cs2 =>
        if d = ']' then some (Json.arr [], cs2)
        else (parseElems f (d :: cs2)).map fun r => (Json.arr r.1, r.2)
    else
      (parseNumberLit (c :: cs1)).map fun r => (Json.num ⟨r.1⟩, r.2)

/-- Reads the members of a JSON object (after the opening brace and
leading whitespace), up to and including the closing brace. -/
def parseMembers : Nat → List Char → Option (List (String × Json) × List Char)
  | 0, _ => none
  | _ + 1, [] => none
  | f + 1, q :: cs1 =>
    if q = '"' then
      match readStringBody cs1 with
      | none => none
      | some (key, cs2) =>
        match skipWs cs2 with
        | [] => none
        | colon :: cs3 =>
          if colon = ':' then
            match parseValue f (skipWs cs3) with
            | none => none
            | some (v, cs4) =>
              match skipWs cs4 with
              | [] => none
              | d :: cs5 =>
                if d = ',' then
                  match parseMembers f (skipWs cs5) with
                  | none => none
                  | some (kvs, cs6) => some (((⟨key⟩, v) :: kvs), cs6)
                else if d = rbrace then some ([(⟨key⟩, v)], cs5)
                else none
          else none
    else none

/-- Reads the elements of a JSON array (after the opening bracket and
leading whitespace), up to and including the closing bracket. -/
def parseElems : Nat → List Char → Option (List Json × List Char)
  | 0, _ => none
  | f + 1, cs =>
    match parseValue f cs with
    | none => none
    | some (v, cs1) =>
      match skipWs cs1 with
      | [] => none
      | d :: cs2 =>
        if d = ',' then
          match parseElems f (skipWs cs2) with
          | none => none
          | some (vs, cs3) => some ((v :: vs), cs3)
        else if d = ']' then some ([v], cs2)
        else none

end

/-- `JSON.parse`: one JSON value surrounded by optional whitespace and
nothing else; `none` is exactly a thrown `SyntaxError`. -/
def jsonParseVal (s : String) : Option Json :=
  match parseValue (s.data.length + 4) (skipWs s.data) with
  | none => none
  | some (j, rest) => if skipWs rest = [] then some j else none

/-- Value of the last occurrence of a key in an object's member list
(`JSON.parse` keeps the last duplicate). -/
def lookupLast (k : String) : List (String × Json) → Option Json
  | [] => none
  | kv :: rest =>
    match lookupLast k rest with
    | some v => some v
    | none => if kv.1 = k then some kv.2 else none

/-- Whether every member of an object belongs to the `User` record type. -/
def userKeysOnly (kvs : List (String × Json)) : Bool :=
  kvs.all fun kv => kv.1 = "email" || kv.1 = "name"

/-- The `User | null`-typed reading of a parsed value, as the source's
typed `setUser(JSON.parse(storedUser))` at line 56 declares it: the JSON
null is the absent user, an object with a string email and optionally a
string name is that record, and any other value lies outside the
declared type (the raw value is kept in the mount outcome instead). -/
def Json.asUser : Json → Option User
  | Json.obj kvs =>
    if userKeysOnly kvs then
      match lookupLast "email" kvs with
      | some (Json.str e) =>
        match lookupLast "name" kvs with
        | none => some { email := e, name := none }
        | some (Json.str n) => some { email := e, name := some n }
        | some _ => none
      | _ => none
    else none
  | _ => none

/-- Whether a JSON number literal denotes zero: every mantissa digit is
zero (the exponent cannot make a nonzero mantissa zero). -/
def mantissaZero : List Char → Bool
  | [] => true
  | c :: cs =>
    if c = 'e' || c = 'E' then true
    else (!(isDigit c) || c = '0') && mantissaZero cs

/-- JS truthiness of a parsed JSON value (how `user ?` branches read the
slot): null, false, zero and the empty string are falsy, everything else
truthy. -/
def Json.truthy : Json → Bool
  | Json.null => false
  | Json.bool b => b
  | Json.num lit => !(mantissaZero lit.data)
  | Json.str s => !(s = "")
  | Json.arr _ => true
  | Json.obj _ => true

/-- The JSON value `JSON.parse` yields on a serialized user record. -/
def userJson (u : User) : Json :=
  match u.name with
  | none => Json.obj [("email", Json.str u.email)]
  | some n => Json.obj [("email", Json.str u.email), ("name", Json.str n)]

/-! ### Container operations -/

/-- Outcome of the mount effect: the resulting world, whether the effect
aborted on an uncaught exception, how many times `setIsLoading` was
invoked, and the raw parsed value passed to `setUser` (when parsing
happened), since that value need not inhabit the declared `User | null`
type. -/
structure InitOutcome where
  world : World
  faulted : Bool
  setIsLoadingCalls : Nat
  setUserArg : Option Json
deriving Repr

/-- The session check run once on mount (`useEffect`, lines 53-59, the
operation the spec calls `initialize()`): read the slot; when the result
is truthy (a nonempty string — the empty string is falsy, so `if
(storedUser)` skips it), `JSON.parse` it and pass the value to
`setUser`; then set `isLoading` false.  A `SyntaxError` is not caught,
so on ill-formed text the effect aborts before `setIsLoading(false)`
runs and no state is committed.  The world's `user` field holds the
`User | null`-typed reading of the parsed value; the raw value is
recorded in `setUserArg`. -/
def sessionCheck (w : World) : InitOutcome :=
  match w.store with
  | none =>
      { world := { w with state := { w.state with isLoading := false } },
        faulted := false, setIsLoadingCalls := 1, setUserArg := none }
  | some s =>
    if s = "" then
      { world := { w with state := { w.state with isLoading := false } },
        faulted := false, setIsLoadingCalls := 1, setUserArg := none }
    else
      match jsonParseVal s with
      | some j =>
          { world := { w with state := { w.state with user := j.asUser, isLoading := false } },
            faulted := false, setIsLoadingCalls := 1, setUserArg := some j }
      | none => { world := w, faulted := true, setIsLoadingCalls := 0, setUserArg := none }

/-- `login` (lines 61-66): build `{email}`, set it as the user, store its
serialization in the slot, close the dialog. -/
def login (email : String) (w : World) : World :=
  let newUser : User := { email := email }
  { state := { w.state with user := some newUser, showAuthModal := false },
    store := some (jsonStringifyUser newUser) }

/-- `signup` (lines 68-74): same body as `login`. -/
def signup (email : String) (w : World) : World :=
  let newUser : User := { email := email }
  { state := { w.state with user := some newUser, showAuthModal := false },
    store := some (jsonStringifyUser newUser) }

/-- `logout` (lines 76-79): clear the user and remove the slot. -/
def logout (w : World) : World :=
  { state := { w.state with user := none }, store := none }

/-- `setShowAuthModal` (state setter, line 49). -/
def setShowAuthModal (b : Bool) (w : World) : World :=
  { w with state := { w.state with showAuthModal := b } }

/-- `setAuthView` (state setter, line 50). -/
def setAuthView (v : AuthView) (w : World) : World :=
  { w with state := { w.state with authView := v } }

/-! ### UI handlers -/

/-- The install link opened by `handleInstallClick` (lines 285, 624). -/
def installUrl : String := "https://google.com"

/-- `handleInstallClick` (Navbar lines 281-291, and identically Hero
lines 620-630): always prevents the default navigation; with a user it
opens `installUrl` in a new context, otherwise it switches the dialog to
the signup view and opens it.  The second component is the URL opened by
`window.open`, if any. -/
def handleInstallClick (w : World) : World × Option String :=
  match w.state.user with
  | some _ => (w, some installUrl)
  | none => (setShowAuthModal true (setAuthView AuthView.signup w), none)

/-- `PricingCard.handleCheckout` (lines 769-776): with no user it prevents
the default navigation and opens the signup dialog; with a user the
anchor's default behavior opens the plan's `checkoutUrl`.  The second
component is the URL the click navigates to, if any. -/
def handleCheckout (checkoutUrl : String) (w : World) : World × Option String :=
  match w.state.user with
  | some _ => (w, some checkoutUrl)
  | none => (setShowAuthModal true (setAuthView AuthView.signup w), none)

/-! ### The auth form submission flow -/

/-- Local state of `AuthModal` (lines 104-106): the two form fields and
the transient submitting flag. -/
structure ModalState where
  email : String
  password : String
  loading : Bool
deriving DecidableEq, Repr

/-- One step of `AuthModal.handleSubmit`'s execution (lines 110-125). -/
inductive SubmitStep where
  | preventDefault
  | setLoading (b : Bool)
  | delay (ms : Nat)
  | invokeLogin (email : String)
  | invokeSignup (email : String)
  | setEmail (s : String)
  | setPassword (s : String)
deriving DecidableEq, Repr

/-- `AuthModal.handleSubmit` (lines 110-125) as the ordered list of steps
it performs: prevent default, set the submitting flag, await the fixed
1000ms delay, invoke `login` or `signup` according to `authView`, clear
the flag, reset both fields. -/
def handleSubmit (authView : AuthView) (m : ModalState) : List SubmitStep :=
  [ SubmitStep.preventDefault,
    SubmitStep.setLoading true,
    SubmitStep.delay 1000,
    (if authView = AuthView.login then SubmitStep.invokeLogin m.email
     else SubmitStep.invokeSignup m.email),
    SubmitStep.setLoading false,
    SubmitStep.setEmail "",
    SubmitStep.setPassword "" ]

/-- Effect of one submission step on the modal state and the world. -/
def applyStep (p : ModalState × World) (step : SubmitStep) : ModalState × World :=
  match step with
  | SubmitStep.preventDefault => p
  | SubmitStep.setLoading b => ({ p.1 with loading := b }, p.2)
  | SubmitStep.delay _ => p
  | SubmitStep.invokeLogin e => (p.1, login e p.2)
  | SubmitStep.invokeSignup e => (p.1, signup e p.2)
  | SubmitStep.setEmail s => ({ p.1 with email := s }, p.2)
  | SubmitStep.setPassword s => ({ p.1 with password := s }, p.2)

/-- Runs a list of submission steps in order. -/
def runSteps (steps : List SubmitStep) (p : ModalState × World) : ModalState × World :=
  steps.foldl applyStep p

/-- The submit button is disabled exactly while the transient submitting
flag is set (`disabled=loading`, line 186). -/
def submitDisabled (m : ModalState) : Bool :=
  m.loading

/-! ### Reachable states

Worlds reachable from the mount state by the session check followed by
the UI event handlers of `src/index.tsx` that call the container:
install/download clicks (Navbar line 330, Hero line 672), checkout clicks
(line 813), the logout button (line 323), the Navbar login button
(line 339, rendered only when `user` is null), the dialog's close
button / backdrop (lines 135, 151) and view switchers (lines 201, 208,
rendered only while the dialog is shown), and the auth form submission
(line 160, possible only while the dialog is shown, line 108). -/
inductive Reachable : World → Prop where
  | boot (st : Store) :
      Reachable (sessionCheck { state := initialState, store := st }).world
  | install (w : World) : Reachable w → Reachable (handleInstallClick w).1
  | checkout (w : World) (url : String) :
      Reachable w → Reachable (handleCheckout url w).1
  | logoutBtn (w : World) : Reachable w → Reachable (logout w)
  | navLogin (w : World) (h : w.state.user = none) :
      Reachable w → Reachable (setShowAuthModal true (setAuthView AuthView.login w))
  | modalClose (w : World) : Reachable w → Reachable (setShowAuthModal false w)
  | modalSwitch (w : World) (v : AuthView) (h : w.state.showAuthModal = true) :
      Reachable w → Reachable (setAuthView v w)
  | submit (w : World) (m : ModalState) (h : w.state.showAuthModal = true) :
      Reachable w → Reachable (runSteps (handleSubmit w.state.authView m) (m, w)).2

/-! ### Serialization round-trip lemmas -/

/-- `hexVal` inverts `hexDigit` on digit values. -/
theorem hexVal_hexDigit : ∀ m, m < 16 → hexVal (hexDigit m) = some m := by decide

/-- Reading a string body inverts JSON escaping: the decoded characters
are recovered and the input after the closing quote is returned. -/
theorem readStringBody_escape (cs rest : List Char) :
    readStringBody (jsonEscapeList cs ++ ('"' :: rest)) = some (cs, rest) := by
  induction cs with
  | nil =>
    show readStringBody ('"' :: rest) = some ([], rest)
    rw [readStringBody.eq_def]
    simp
  | cons c cs ih =>
    by_cases h1 : c = '"'
    · subst h1
      simp [jsonEscapeList, jsonEscapeChar, List.append_assoc]
      rw [readStringBody.eq_def]
      simp [unescapeChar, ih]
    · by_cases h2 : c = '\\'
      · subst h2
        simp [jsonEscapeList, jsonEscapeChar, List.append_assoc]
        rw [readStringBody.eq_def]
        simp [unescapeChar, ih]
      · by_cases h3 : c = '\n'
        · subst h3
          simp [jsonEscapeList, jsonEscapeChar, List.append_assoc]
          rw [readStringBody.eq_def]
          simp [unescapeChar, ih]
        · by_cases h4 : c = '\r'
          · subst h4
            simp [jsonEscapeList, jsonEscapeChar, List.append_assoc]
            rw [readStringBody.eq_def]
            simp [unescapeChar, ih]
          · by_cases h5 : c = '\t'
            · subst h5
              simp [jsonEscapeList, jsonEscapeChar, List.append_assoc]
              rw [readStringBody.eq_def]
              simp [unescapeChar, ih]
            · by_cases h6 : c.toNat = 8
              · have hc : c = Char.ofNat 8 := by rw [← h6, Char.ofNat_toNat]
                subst hc
                simp [jsonEscapeList, jsonEscapeChar, List.append_assoc]
                rw [readStringBody.eq_def]
                simp [unescapeChar, ih]
              · by_cases h7 : c.toNat = 12
                · have hc : c = Char.ofNat 12 := by rw [← h7, Char.ofNat_toNat]
                  subst hc
                  simp [jsonEscapeList, jsonEscapeChar, List.append_assoc]
                  rw [readStringBody.eq_def]
                  simp [unescapeChar, ih]
                · by_cases h8 : c.toNat < 32
                  · have e1 : jsonEscapeChar c =
                        ['\\', 'u', '0', '0', hexDigit (c.toNat / 16), hexDigit (c.toNat % 16)] := by
                      simp only [jsonEscapeChar]
                      simp [h1, h2, h3, h4, h5, h6, h7, h8]
                    have hd1 := hexVal_hexDigit (c.toNat / 16) (by omega)
                    have hd2 := hexVal_hexDigit (c.toNat % 16) (by omega)
                    have h0 : hexVal '0' = some 0 := by decide
                    have hval : Char.ofNat (c.toNat / 16 * 16 + c.toNat % 16) = c := by
                      have hn : c.toNat / 16 * 16 + c.toNat % 16 = c.toNat := by omega
                      rw [hn, Char.ofNat_toNat]
                    show readStringBody (jsonEscapeChar c ++ jsonEscapeList cs ++ ('"' :: rest)) =
                      some (c :: cs, rest)
                    rw [e1]
                    simp only [List.cons_append, List.append_assoc]
                    rw [readStringBody.eq_def]
                    simp [h0, hd1, hd2, ih, hval]
                  · have e1 : jsonEscapeChar c = [c] := by
                      simp only [jsonEscapeChar]
                      simp [h1, h2, h3, h4, h5, h6, h7, h8]
                    show readStringBody (jsonEscapeChar c ++ jsonEscapeList cs ++ ('"' :: rest)) =
                      some (c :: cs, rest)
                    rw [e1]
                    simp only [List.cons_append, List.append_assoc, List.nil_append]
                    rw [readStringBody.eq_def]
                    simp [h1, h2, h8, ih]

/-- Dropping whitespace in front of a non-whitespace character is the
identity. -/
theorem skipWs_cons (c : Char) (cs : List Char) (h : isWs c = false) :
    skipWs (c :: cs) = c :: cs := by
  simp [skipWs, h]

/-- The typed reading of the JSON value of a serialized user record is
that record. -/
theorem asUser_userJson (u : User) : (userJson u).asUser = some u := by
  obtain ⟨e, hn⟩ := u
  cases hn <;> simp [userJson, Json.asUser, userKeysOnly, lookupLast]

/-- A serialized user record is never the empty (falsy) string. -/
theorem jsonStringifyUser_ne_empty (u : User) : jsonStringifyUser u ≠ "" := by
  obtain ⟨e, hn⟩ := u
  cases hn <;>
  · intro h
    have h2 := congrArg String.data h
    simp [jsonStringifyUser, stringifyUserChars] at h2

/-- Reading a quoted, escaped string yields that string. -/
theorem parseValue_strLit (k : Nat) (s : String) (rest : List Char) :
    parseValue (k + 1) ('"' :: (jsonEscapeList s.data ++ ('"' :: rest)))
      = some (Json.str s, rest) := by
  rw [parseValue.eq_def]
  simp [readStringBody_escape]

/-- Reading a serialized user record with no name: the object with the
one email member, consuming the whole input.  Fuel four beyond any bound
covers the record's nesting depth. -/
theorem parseValue_userRecord_none (k : Nat) (e : String) :
    parseValue (k + 4) (stringifyUserChars { email := e, name := none })
      = some (userJson { email := e, name := none }, []) := by
  have hswq : ∀ cs : List Char, skipWs ('"' :: cs) = '"' :: cs :=
    fun cs => skipWs_cons _ cs (by decide)
  have hswc : ∀ cs : List Char, skipWs (':' :: cs) = ':' :: cs :=
    fun cs => skipWs_cons _ cs (by decide)
  have hswb : ∀ cs : List Char, skipWs (rbrace :: cs) = rbrace :: cs :=
    fun cs => skipWs_cons _ cs (by decide)
  have hesc : jsonEscapeList ['e', 'm', 'a', 'i', 'l'] = ['e', 'm', 'a', 'i', 'l'] := by decide
  show parseValue (k + 4) (lbrace :: (keyEmail ++ jsonQuoteList e.data ++ [rbrace])) = _
  have hkey := readStringBody_escape ['e', 'm', 'a', 'i', 'l']
    (':' :: ('"' :: (jsonEscapeList e.data ++ ('"' :: [rbrace]))))
  rw [hesc] at hkey
  simp only [List.cons_append, List.nil_append] at hkey
  rw [parseValue.eq_def]
  simp only [keyEmail, jsonQuoteList, List.append_assoc, List.cons_append,
    List.singleton_append, List.nil_append]
  simp +decide only [hswq, Nat.add_eq]
  rw [parseMembers.eq_def]
  simp +decide only [hkey, hswc, hswq, hswb, Nat.add_eq]
  have hval : parseValue (k + 2) ('"' :: (jsonEscapeList e.data ++ ['"', rbrace]))
      = some (Json.str e, [rbrace]) := parseValue_strLit (k + 1) e [rbrace]
  simp +decide [hval, hswb, userJson]

/-- Reading a serialized user record with a name: the object with the
email and name members, consuming the whole input. -/
theorem parseValue_userRecord_some (k : Nat) (e n : String) :
    parseValue (k + 4) (stringifyUserChars { email := e, name := some n })
      = some (userJson { email := e, name := some n }, []) := by
  have hswq : ∀ cs : List Char, skipWs ('"' :: cs) = '"' :: cs :=
    fun cs => skipWs_cons _ cs (by decide)
  have hswc : ∀ cs : List Char, skipWs (':' :: cs) = ':' :: cs :=
    fun cs => skipWs_cons _ cs (by decide)
  have hswb : ∀ cs : List Char, skipWs (rbrace :: cs) = rbrace :: cs :=
    fun cs => skipWs_cons _ cs (by decide)
  have hswm : ∀ cs : List Char, skipWs (',' :: cs) = ',' :: cs :=
    fun cs => skipWs_cons _ cs (by decide)
  have hesc : jsonEscapeList ['e', 'm', 'a', 'i', 'l'] = ['e', 'm', 'a', 'i', 'l'] := by decide
  have hescn : jsonEscapeList ['n', 'a', 'm', 'e'] = ['n', 'a', 'm', 'e'] := by decide
  show parseValue (k + 4) (lbrace :: (keyEmail ++ jsonQuoteList e.data ++
    (',' :: (keyName ++ jsonQuoteList n.data ++ [rbrace])))) = _
  have hkey := readStringBody_escape ['e', 'm', 'a', 'i', 'l']
    (':' :: ('"' :: (jsonEscapeList e.data ++ ('"' :: (',' :: ('"' :: 'n' :: 'a' :: 'm' :: 'e' ::
      '"' :: ':' :: '"' :: (jsonEscapeList n.data ++ ['"', rbrace])))))))
  rw [hesc] at hkey
  simp only [List.cons_append, List.nil_append] at hkey
  have hkey2 := readStringBody_escape ['n', 'a', 'm', 'e']
    (':' :: ('"' :: (jsonEscapeList n.data ++ ('"' :: [rbrace]))))
  rw [hescn] at hkey2
  simp only [List.cons_append, List.nil_append] at hkey2
  rw [parseValue.eq_def]
  simp only [keyEmail, keyName, jsonQuoteList, List.append_assoc, List.cons_append,
    List.singleton_append, List.nil_append]
  simp +decide only [hswq, Nat.add_eq]
  rw [parseMembers.eq_def]
  simp +decide only [hkey, hswc, hswq, hswb, hswm, Nat.add_eq]
  have hval1 : parseValue (k + 2) ('"' :: (jsonEscapeList e.data ++ '"' :: ',' :: '"' :: 'n' ::
      'a' :: 'm' :: 'e' :: '"' :: ':' :: '"' :: (jsonEscapeList n.data ++ ['"', rbrace])))
      = some (Json.str e, ',' :: '"' :: 'n' :: 'a' :: 'm' :: 'e' :: '"' :: ':' :: '"' ::
        (jsonEscapeList n.data ++ ['"', rbrace])) :=
    parseValue_strLit (k + 1) e _
  simp +decide only [hval1, hswm, hswq, Nat.add_eq]
  rw [parseMembers.eq_def]
  simp +decide only [hkey2, hswc, hswq, Nat.add_eq]
  have hval2 : parseValue (k + 1) ('"' :: (jsonEscapeList n.data ++ ['"', rbrace]))
      = some (Json.str n, [rbrace]) :=
    parseValue_strLit k n [rbrace]
  simp +decide [hval2, hswb, userJson]

/-- Reading a serialized user record yields its JSON object and consumes
the whole input. -/
theorem parseValue_userRecord (k : Nat) (u : User) :
    parseValue (k + 4) (stringifyUserChars u) = some (userJson u, []) := by
  obtain ⟨e, hn⟩ := u
  cases hn with
  | none => exact parseValue_userRecord_none k e
  | some n => exact parseValue_userRecord_some k e n

/-- The model of `JSON.parse` inverts `JSON.stringify` on user records. -/
theorem jsonParseVal_stringify (u : User) :
    jsonParseVal (jsonStringifyUser u) = some (userJson u) := by
  have h := parseValue_userRecord ((stringifyUserChars u).length) u
  have hsw : skipWs (stringifyUserChars u) = stringifyUserChars u := by
    obtain ⟨e, hn⟩ := u
    cases hn <;> exact skipWs_cons _ _ (by decide)
  rw [jsonParseVal]
  have hd : (jsonStringifyUser u).data = stringifyUserChars u := rfl
  rw [hd, hsw, h]
  simp [skipWs]

/-! ### Lemmas about the operations -/

/-- Running the whole submission trace performs the auth operation of the
current view; since `signup` has the same body as `login`, both views end
in the `login` world. -/
theorem runSteps_handleSubmit (v : AuthView) (m : ModalState) (w : World) :
    (runSteps (handleSubmit v m) (m, w)).2 = login m.email w := by
  cases v <;> rfl

/-- The session check never writes the store. -/
theorem sessionCheck_store (w : World) : (sessionCheck w).world.store = w.store := by
  rcases w with ⟨st, store⟩
  cases store with
  | none => rfl
  | some s =>
    by_cases he : s = ""
    · simp [sessionCheck, he]
    · cases hp : jsonParseVal s with
      | none => simp [sessionCheck, he, hp]
      | some j => simp [sessionCheck, he, hp]

/-! ### The claims -/

/-- C2: for every email string, `login(email)` and `signup(email)` each
set the Session to the record with that email and no name, write that
record's serialization to the persisted slot, and set `showAuthModal`
false.  Both are total functions of the prior world, so neither has a
failure path. -/
theorem login_signup_behavior (e : String) (w : World) :
    (login e w).state.user = some { email := e, name := none } ∧
    (login e w).store = some (jsonStringifyUser { email := e, name := none }) ∧
    (login e w).state.showAuthModal = false ∧
    (signup e w).state.user = some { email := e, name := none } ∧
    (signup e w).store = some (jsonStringifyUser { email := e, name := none }) ∧
    (signup e w).state.showAuthModal = false :=
  ⟨rfl, rfl, rfl, rfl, rfl, rfl⟩

/-- C4: for every email string and every starting world, `login` and
`signup` produce the same container state and the same persisted store. -/
theorem login_eq_signup (e : String) (w : World) : login e w = signup e w := rfl

/-- C5: from every prior world, `logout()` sets the Session to absent and
removes the persisted record. -/
theorem logout_clears (w : World) :
    (logout w).state.user = none ∧ (logout w).store = none := ⟨rfl, rfl⟩

/-- C6: `logout()` is idempotent on the container state and the store. -/
theorem logout_idempotent (w : World) : logout (logout w) = logout w := rfl

/-- C8: the auth form submission performs exactly, in order: prevent
default, enter the transient submitting state, the fixed 1000ms delay,
`login` if the view is `login` and `signup` otherwise, leave the
transient state, reset both fields.  The submit control (disabled while
`loading`) is disabled after each step from the setLoading up to and
including the auth invocation, the Session is already updated before the
re-enabling step runs, and after the full trace both fields are empty. -/
theorem handleSubmit_trace (v : AuthView) (m : ModalState) (w : World) :
    handleSubmit v m =
      [ SubmitStep.preventDefault, SubmitStep.setLoading true, SubmitStep.delay 1000,
        (if v = AuthView.login then SubmitStep.invokeLogin m.email
         else SubmitStep.invokeSignup m.email),
        SubmitStep.setLoading false, SubmitStep.setEmail "", SubmitStep.setPassword "" ] ∧
    submitDisabled (runSteps ((handleSubmit v m).take 2) (m, w)).1 = true ∧
    submitDisabled (runSteps ((handleSubmit v m).take 3) (m, w)).1 = true ∧
    submitDisabled (runSteps ((handleSubmit v m).take 4) (m, w)).1 = true ∧
    (runSteps ((handleSubmit v m).take 4) (m, w)).2.state.user
      = some { email := m.email, name := none } ∧
    (runSteps ((handleSubmit v m).take 5) (m, w)).1.loading = false ∧
    (runSteps ((handleSubmit v m).take 5) (m, w)).2.state.user
      = some { email := m.email, name := none } ∧
    (runSteps (handleSubmit v m) (m, w)).1.email = "" ∧
    (runSteps (handleSubmit v m) (m, w)).1.password = "" := by
  cases v <;> exact ⟨rfl, rfl, rfl, rfl, rfl, rfl, rfl, rfl, rfl⟩

/-- C9: the UI flags are never written to the persisted store: the flag
setters and the session check leave the store unchanged, and the only
operations that write it store a serialized user record (`login`,
`signup`) or remove it (`logout`); moreover each setter changes only its
own flag. -/
theorem ui_flags_not_persisted (b : Bool) (v : AuthView) (e : String) (w : World) :
    (setShowAuthModal b w).store = w.store ∧
    (setShowAuthModal b w).state.user = w.state.user ∧
    (setShowAuthModal b w).state.isLoading = w.state.isLoading ∧
    (setShowAuthModal b w).state.authView = w.state.authView ∧
    (setShowAuthModal b w).state.showAuthModal = b ∧
    (setAuthView v w).store = w.store ∧
    (setAuthView v w).state.user = w.state.user ∧
    (setAuthView v w).state.isLoading = w.state.isLoading ∧
    (setAuthView v w).state.showAuthModal = w.state.showAuthModal ∧
    (setAuthView v w).state.authView = v ∧
    (sessionCheck w).world.store = w.store ∧
    (login e w).store = some (jsonStringifyUser { email := e, name := none }) ∧
    (signup e w).store = some (jsonStringifyUser { email := e, name := none }) ∧
    (logout w).store = none :=
  ⟨rfl, rfl, rfl, rfl, rfl, rfl, rfl, rfl, rfl, rfl, sessionCheck_store w, rfl, rfl, rfl⟩

/-- C10: persist/rehydrate round-trip: after `login(email)` (or
`signup(email)`), running the session check in a fresh container over the
same store does not fault and restores a Session identical to the one the
operation produced. -/
theorem persist_rehydrate_roundtrip (e : String) (w : World) :
    (sessionCheck { state := initialState, store := (login e w).store }).faulted = false ∧
    (sessionCheck { state := initialState, store := (login e w).store }).world.state.user
      = (login e w).state.user ∧
    (sessionCheck { state := initialState, store := (signup e w).store }).world.state.user
      = (signup e w).state.user := by
  have h : (login e w).store = some (jsonStringifyUser { email := e, name := none }) := rfl
  have h2 : (signup e w).store = some (jsonStringifyUser { email := e, name := none }) := rfl
  refine ⟨?_, ?_, ?_⟩ <;>
    simp [h, h2, sessionCheck, jsonStringifyUser_ne_empty, jsonParseVal_stringify,
      asUser_userJson, login, signup]

/-- C7: an install/download or checkout click navigates to the fixed
external URL exactly when a Session exists; with no Session the click is
intercepted (no navigation), the view is set to signup and the dialog is
opened. -/
theorem install_checkout_gating (w : World) (url : String) :
    (w.state.user ≠ none →
      handleInstallClick w = (w, some installUrl) ∧ handleCheckout url w = (w, some url)) ∧
    (w.state.user = none →
      (handleInstallClick w).2 = none ∧
      (handleInstallClick w).1.state.showAuthModal = true ∧
      (handleInstallClick w).1.state.authView = AuthView.signup ∧
      (handleCheckout url w).2 = none ∧
      (handleCheckout url w).1.state.showAuthModal = true ∧
      (handleCheckout url w).1.state.authView = AuthView.signup) := by
  cases hu : w.state.user with
  | none =>
    refine ⟨fun h => absurd rfl h, fun _ => ?_⟩
    simp [handleInstallClick, handleCheckout, hu, setShowAuthModal, setAuthView]
  | some u =>
    refine ⟨fun _ => ?_, fun h => Option.noConfusion h⟩
    simp [handleInstallClick, handleCheckout, hu]

/-- Witness for C7: in a logged-in world the install click opens the
install URL, and in the fresh world a checkout click opens the dialog. -/
theorem install_checkout_gating_witness :
    handleInstallClick (login "a@b.com" { state := initialState, store := none })
      = (login "a@b.com" { state := initialState, store := none }, some installUrl) ∧
    (handleCheckout "https://example.com/checkout-pro"
      { state := initialState, store := none }).1.state.showAuthModal = true :=
  ⟨((install_checkout_gating (login "a@b.com" { state := initialState, store := none })
      "https://example.com/checkout-pro").1 (by decide)).1,
   ((install_checkout_gating { state := initialState, store := none }
      "https://example.com/checkout-pro").2 rfl).2.2.2.2.1⟩

/-- Counterexample to C1 as stated, at two concrete store contents.  At
the lone opening brace (a genuine `SyntaxError`), the session check
faults on the uncaught parse error, so `isLoading` is never set false
(it stays true and `setIsLoading` is invoked zero times, not once).  At
the stored text 42 (well-formed JSON that is not a user record), the
effect completes but passes the truthy non-record value 42 to the
session slot, so the Session is neither absent nor a parsed record. -/
theorem sessionCheck_claim_counterexample :
    (sessionCheck { state := initialState, store := some "\x7b" }).faulted = true ∧
    (sessionCheck { state := initialState, store := some "\x7b" }).world.state.isLoading = true ∧
    (sessionCheck { state := initialState, store := some "\x7b" }).setIsLoadingCalls = 0 ∧
    (sessionCheck { state := initialState, store := some "42" }).faulted = false ∧
    (sessionCheck { state := initialState, store := some "42" }).setIsLoadingCalls = 1 ∧
    (sessionCheck { state := initialState, store := some "42" }).setUserArg
      = some (Json.num "42") ∧
    Json.truthy (Json.num "42") = true ∧
    Json.asUser (Json.num "42") = none :=
  ⟨rfl, rfl, rfl, rfl, rfl, rfl, rfl, rfl⟩

/-- C1 (amended): if the slot is absent, or holds the empty string
(falsy, so the effect's truthiness test skips parsing), the session
check terminates with `isLoading` set false exactly once and the Session
untouched (absent); if the slot holds a nonempty string that parses as
JSON, it terminates with `isLoading` set false exactly once and passes
the parsed value to the session slot — the Session equals the parsed
record when the value is a well-formed user record and is absent when
the value is the JSON null; if the slot holds a nonempty string on which
JSON parsing raises a `SyntaxError`, the error propagates uncaught: the
check faults with `isLoading` still true, the Session not set and zero
`setIsLoading` calls. -/
theorem sessionCheck_amended (st : Store) :
    (st = none →
      sessionCheck { state := initialState, store := st } =
        { world := { state := { initialState with isLoading := false }, store := st },
          faulted := false, setIsLoadingCalls := 1, setUserArg := none }) ∧
    (st = some "" →
      sessionCheck { state := initialState, store := st } =
        { world := { state := { initialState with isLoading := false }, store := st },
          faulted := false, setIsLoadingCalls := 1, setUserArg := none }) ∧
    (∀ s j, st = some s → s ≠ "" → jsonParseVal s = some j →
      sessionCheck { state := initialState, store := st } =
        { world := { state := { initialState with user := j.asUser, isLoading := false },
                     store := st },
          faulted := false, setIsLoadingCalls := 1, setUserArg := some j }) ∧
    (∀ s, st = some s → s ≠ "" → jsonParseVal s = none →
      sessionCheck { state := initialState, store := st } =
        { world := { state := initialState, store := st },
          faulted := true, setIsLoadingCalls := 0, setUserArg := none }) := by
  refine ⟨?_, ?_, ?_, ?_⟩
  · rintro rfl; rfl
  · rintro rfl; rfl
  · rintro s j rfl hne hp; simp [sessionCheck, hne, hp]
  · rintro s rfl hne hp; simp [sessionCheck, hne, hp]

/-- Witness for C1 (amended): the session check on a stored record for
the address a@b.com completes and restores exactly that session. -/
theorem sessionCheck_amended_witness :
    sessionCheck { state := initialState,
                   store := some (jsonStringifyUser { email := "a@b.com", name := none }) } =
      { world := { state := { initialState with user := some { email := "a@b.com", name := none },
                                                isLoading := false },
                   store := some (jsonStringifyUser { email := "a@b.com", name := none }) },
        faulted := false, setIsLoadingCalls := 1,
        setUserArg := some (Json.obj [("email", Json.str "a@b.com")]) } :=
  (sessionCheck_amended _).2.2.1 (jsonStringifyUser { email := "a@b.com", name := none })
    (Json.obj [("email", Json.str "a@b.com")]) rfl (by decide) rfl

/-- C3: in every world reachable from the mount state by the session
check and the UI event handlers, a present Session implies the auth
dialog is closed. -/
theorem session_implies_modal_closed (w : World) (h : Reachable w) :
    w.state.user.isSome = true → w.state.showAuthModal = false := by
  induction h with
  | boot st =>
    intro _
    show (sessionCheck { state := initialState, store := st }).world.state.showAuthModal = false
    cases st with
    | none => rfl
    | some s =>
      by_cases he : s = ""
      · simp [sessionCheck, he, initialState]
      · cases hp : jsonParseVal s with
        | none => simp [sessionCheck, he, hp, initialState]
        | some j => simp [sessionCheck, he, hp, initialState]
  | install w hr ih =>
    cases hu : w.state.user with
    | some u => simpa [handleInstallClick, hu] using ih
    | none =>
      intro hs
      simp [handleInstallClick, hu, setShowAuthModal, setAuthView] at hs
  | checkout w url hr ih =>
    cases hu : w.state.user with
    | some u => simpa [handleCheckout, hu] using ih
    | none =>
      intro hs
      simp [handleCheckout, hu, setShowAuthModal, setAuthView] at hs
  | logoutBtn w hr ih =>
    intro hs
    simp [logout] at hs
  | navLogin w hnull hr ih =>
    intro hs
    simp [setShowAuthModal, setAuthView, hnull] at hs
  | modalClose w hr ih =>
    intro _
    rfl
  | modalSwitch w v hshow hr ih =>
    intro hs
    exact ih hs
  | submit w m hshow hr ih =>
    intro _
    rw [runSteps_handleSubmit]
    rfl

/-- Witness for C3: booting over a stored record reaches a world with a
Session present, and there the dialog is closed. -/
theorem session_implies_modal_closed_witness :
    (sessionCheck { state := initialState,
                    store := some (jsonStringifyUser { email := "a@b.com", name := none })
                  }).world.state.showAuthModal = false :=
  session_implies_modal_closed _ (Reachable.boot _) (by decide)

end ViralAudit
